import Mathlib

/-!
The program simple-physics-sim: mesh generation, bounce physics and GPU handle lifetime

A shallow embedding of `src/main.cpp`.

* The two generation loops of `main` (perimeter vertices, fan indices) are embedded as
  recursive functions on the loop counter; `std::vector` is a `List`, `push_back` appends
  one element.  The constants `step_rad` and `radius_px` are parameters.  The loops are
  embedded twice.  `vertexLoop32` and `indexLoop32` carry out the `int` operations of the
  source in 32-bit two's-complement arithmetic; the claims on the counts and on the index
  array are settled on them.  `vertexLoop` and `indexLoop` count in the natural numbers;
  the claims worded over exact real arithmetic are settled on them, and below
  `step_rad = 2^30` both embeddings agree (`vertices32_eq`, `indices32_eq`).
* The vertex loop is generic in the number type and in the functions `sin`, `cos` and the
  constant `pi` it calls; the theorems instantiate them with `Real.sin`, `Real.cos`,
  `Real.pi`, reading the floating-point values as exact reals.
* The physics update is embedded twice as well.  `physicsUpdate32` carries out the update in
  binary32 arithmetic (`F32`: round to nearest, ties to even, signed zeros, infinities,
  NaN); the floor invariant and the collision response are settled on it.  `physicsUpdate`
  is the update over `ℚ`, for the claim worded over exact rational arithmetic.
* The wrapper classes `Shader`, `Program`, `Buffer`, `VertexArray` are embedded as
  transitions on a record of live instances, the GL create/delete calls issued so far, and
  the lines written to `std::cout`.
-/

namespace SimplePhysicsSim

/-! ## Mesh generation (`main`, lines 156-199) -/

/-- The call `std::vector::push_back`. -/
def push_back {β : Type} (vec : List β) (x : β) : List β := vec ++ [x]

/-- The declaration `auto origin = glm::ivec2(0, 0);`. -/
def origin : Int × Int := (0, 0)

/-- The six `push_back` calls of lines 164-170 on the empty vector: the origin vertex. -/
def originVertex (α : Type) [Field α] : List α :=
  let vertices : List α := []
  let vertices := push_back vertices (origin.1 : α)
  let vertices := push_back vertices (origin.2 : α)
  let vertices := push_back vertices 0
  let vertices := push_back vertices 1
  let vertices := push_back vertices 1
  let vertices := push_back vertices 1
  vertices

/-- The loop `for (int i = 0; i < step_rad * 2; i++)` of lines 173-187, entered with
counter `i` and the vector built so far. -/
def vertexLoop {α : Type} [Field α] (sin cos : α → α) (pi : α) (step_rad : ℕ) (radius_px : α)
    (i : ℕ) (vertices : List α) : List α :=
  if i < step_rad * 2 then
    let theta := (pi / (step_rad : α)) * (i : α)
    let y := radius_px * sin theta
    let x := radius_px * cos theta
    let vertices := push_back vertices (x + (origin.1 : α))
    let vertices := push_back vertices (y + (origin.2 : α))
    let vertices := push_back vertices 0
    let vertices := push_back vertices (0.5 + 0.5 * sin theta)
    let vertices := push_back vertices (0.5 + 0.5 * cos theta)
    let vertices := push_back vertices 0.7
    vertexLoop sin cos pi step_rad radius_px (i + 1) vertices
  else
    vertices
termination_by step_rad * 2 - i

/-- The vector `vertices` of `main` once the vertex loop has finished. -/
def vertices {α : Type} [Field α] (sin cos : α → α) (pi : α) (step_rad : ℕ) (radius_px : α) :
    List α :=
  vertexLoop sin cos pi step_rad radius_px 0 (originVertex α)

/-- The loop `for (int i = 1; i <= step_rad * 2; i++)` of lines 190-199, entered with
counter `i` and the vector built so far. -/
def indexLoop (step_rad : ℕ) (i : ℕ) (indices : List ℕ) : List ℕ :=
  if i ≤ step_rad * 2 then
    let indices := push_back indices 0
    let indices := push_back indices i
    let indices :=
      if i < step_rad * 2 then push_back indices (i + 1) else push_back indices 1
    indexLoop step_rad (i + 1) indices
  else
    indices
termination_by step_rad * 2 + 1 - i

/-- The vector `indices` of `main` once the index loop has finished. -/
def indices (step_rad : ℕ) : List ℕ := indexLoop step_rad 1 []

/-! ### The same loops in `int` arithmetic

`step_rad` and both loop counters are `int` in `main`.  The definitions below carry out
every `int` operation of the two loops in 32-bit two's-complement arithmetic; they are the
ones used for the claims on counts and on the index array, which are stated for every
`step_rad`. -/

/-- The value of an `int` expression whose exact value is `x`: reduced to the range
`-2^31 .. 2^31 - 1`. -/
def wrapInt (x : ℤ) : ℤ := (x + 2147483648) % 4294967296 - 2147483648

/-- The conversion from `int` to `unsigned int` made by `indices.push_back(i)`. -/
def toUnsigned (x : ℤ) : ℕ := (x % 4294967296).toNat

/-- The loop `for (int i = 0; i < step_rad * 2; i++)` of lines 173-187 with `int`
arithmetic, entered with counter `i` and the vector built so far. -/
def vertexLoop32 {α : Type} [Field α] (sin cos : α → α) (pi : α) (step_rad : ℤ) (radius_px : α)
    (i : ℤ) (vertices : List α) : List α :=
  if i < wrapInt (step_rad * 2) then
    let theta := (pi / (step_rad : α)) * (i : α)
    let y := radius_px * sin theta
    let x := radius_px * cos theta
    let vertices := push_back vertices (x + (origin.1 : α))
    let vertices := push_back vertices (y + (origin.2 : α))
    let vertices := push_back vertices 0
    let vertices := push_back vertices (0.5 + 0.5 * sin theta)
    let vertices := push_back vertices (0.5 + 0.5 * cos theta)
    let vertices := push_back vertices 0.7
    vertexLoop32 sin cos pi step_rad radius_px (wrapInt (i + 1)) vertices
  else
    vertices
termination_by (wrapInt (step_rad * 2) - i).toNat
decreasing_by
  simp only [wrapInt] at *
  omega

/-- The vector `vertices` of `main` once the vertex loop has finished, `int` arithmetic. -/
def vertices32 {α : Type} [Field α] (sin cos : α → α) (pi : α) (step_rad : ℤ) (radius_px : α) :
    List α :=
  vertexLoop32 sin cos pi step_rad radius_px 0 (originVertex α)

/-- The loop `for (int i = 1; i <= step_rad * 2; i++)` of lines 190-199 with `int`
arithmetic, entered with counter `i` and the vector built so far. -/
def indexLoop32 (step_rad : ℤ) (i : ℤ) (indices : List ℕ) : List ℕ :=
  if i ≤ wrapInt (step_rad * 2) then
    let indices := push_back indices 0
    let indices := push_back indices (toUnsigned i)
    let indices :=
      if i < wrapInt (step_rad * 2) then push_back indices (toUnsigned (wrapInt (i + 1)))
      else push_back indices 1
    indexLoop32 step_rad (wrapInt (i + 1)) indices
  else
    indices
termination_by (wrapInt (step_rad * 2) + 1 - i).toNat
decreasing_by
  simp only [wrapInt] at *
  omega

/-- The vector `indices` of `main` once the index loop has finished, `int` arithmetic. -/
def indices32 (step_rad : ℤ) : List ℕ := indexLoop32 step_rad 1 []

/-! ### Loop characterisations -/

/-- The six floats one iteration of the vertex loop appends. -/
def perimeterVertex {α : Type} [Field α] (sin cos : α → α) (pi : α) (step_rad : ℕ)
    (radius_px : α) (i : ℕ) : List α :=
  [radius_px * cos ((pi / (step_rad : α)) * (i : α)) + (origin.1 : α),
   radius_px * sin ((pi / (step_rad : α)) * (i : α)) + (origin.2 : α),
   0,
   0.5 + 0.5 * sin ((pi / (step_rad : α)) * (i : α)),
   0.5 + 0.5 * cos ((pi / (step_rad : α)) * (i : α)),
   0.7]

/-- The three indices one iteration of the index loop appends. -/
def fanTriangle (step_rad : ℕ) (i : ℕ) : List ℕ :=
  [0, i, if i < step_rad * 2 then i + 1 else 1]

/-! ### Reading the mesh back (`main`, lines 300-316: the mesh debugger) -/

/-- The declaration `auto gravitational_acceleration = -9.81;`. -/
def gravitational_acceleration : ℚ := -9.81

/-- The variables `v` and `y` of the frame loop, and the `COLLISION` lines written to
`std::cout` so far. -/
structure PhysicsState where
  v : ℚ
  y : ℚ
  cout : List String

/-- The declarations `float v = 0.0f; float y = 0.0f;` on entry to the frame loop. -/
def initialState : PhysicsState := { v := 0.0, y := 0.0, cout := [] }

/-- Lines 281-289: `v += a * dt; y += v * dt;` followed by the collision test. -/
def physicsUpdate (a dt : ℚ) (s : PhysicsState) : PhysicsState :=
  let v := s.v + a * dt
  let y := s.y + v * dt
  if y ≤ -1.0 then
    { v := v * (-0.95), y := -1.0, cout := push_back s.cout ("COLLISION") }
  else
    { v := v, y := y, cout := s.cout }

/-- The frame loop of `main`, as far as `v` and `y` go: one `physicsUpdate` per iteration,
with the `dt` measured in that iteration; `dts` lists the measured values up to the close
request. -/
def frameLoop (a : ℚ) (dts : List ℚ) (s : PhysicsState) : PhysicsState :=
  dts.foldl (fun s dt => physicsUpdate a dt s) s

/-! ### The constant-timestep run -/

/-- State after `k` frames from rest under gravity with `dt = 0.1` on every frame. -/
def constantRun (k : ℕ) : PhysicsState :=
  frameLoop gravitational_acceleration (List.replicate k 0.1) initialState

/-- Height after frame `k`. -/
def heightAfter (k : ℕ) : ℚ := (constantRun k).y

/-- Frame `k` (frames are numbered from 1) reports a collision: its update writes one more
`COLLISION` line. -/
def collisionFrame (k : ℕ) : Bool :=
  decide (1 ≤ k ∧ (constantRun k).cout.length = (constantRun (k - 1)).cout.length + 1)

/-- The height frame `k` integrates, before the collision test. -/
def integratedHeight (k : ℕ) : ℚ :=
  (constantRun (k - 1)).y
    + ((constantRun (k - 1)).v + gravitational_acceleration * 0.1) * 0.1

/-- Frame `k` is a downward crossing of `-1.0`: it starts strictly above `-1.0` and integrates
a height at or below `-1.0`. -/
def downwardCrossing (k : ℕ) : Bool :=
  decide (1 ≤ k ∧ -1.0 < heightAfter (k - 1) ∧ integratedHeight k ≤ -1.0)

/-- Frames `c₁ < c₂` both report a collision and no frame strictly between them does. -/
def successiveCollisions (c₁ c₂ : ℕ) : Bool :=
  collisionFrame c₁ && collisionFrame c₂ && decide (c₁ < c₂) &&
    (List.range' (c₁ + 1) (c₂ - c₁ - 1)).all (fun f => !collisionFrame f)

/-- The maximum height over the frames `c₁, c₁ + 1, ..., c₂`. -/
def peakBetween (c₁ c₂ : ℕ) : ℚ :=
  ((List.range' c₁ (c₂ + 1 - c₁)).map heightAfter).foldl max (heightAfter c₁)

/-! ## Physics update in binary32 arithmetic (`main`, lines 271-289)

`a`, `v`, `y` and `dt` are `float` in `main`.  The definitions below carry out the update as
the machine does: every sum and product is rounded to binary32 (round to nearest, ties to
even, one rounding per operation), with signed zeros, infinities and NaN.  A float is NaN,
an infinity with its sign, or a finite value given by its sign and its magnitude. -/

/-- The rational `2 ^ e`. -/
def pow2 (e : ℤ) : ℚ :=
  if 0 ≤ e then ((2 ^ e.toNat : ℕ) : ℚ) else 1 / ((2 ^ (-e).toNat : ℕ) : ℚ)

/-- Binary logarithm of `n`, rounded down, by repeated halving; `fuel` bounds the number of
halvings. -/
def log2Fuel : ℕ → ℕ → ℕ
  | 0, _ => 0
  | fuel + 1, n => if 2 ≤ n then log2Fuel fuel (n / 2) + 1 else 0

/-- Binary logarithm of `n ≥ 1`, rounded down. -/
def natLog2 (n : ℕ) : ℕ := log2Fuel n n

/-- For `q > 0`: the integer `e` with `2 ^ e ≤ q < 2 ^ (e + 1)`. -/
def ilog2 (q : ℚ) : ℤ :=
  let k : ℤ := (natLog2 q.num.natAbs : ℤ) - (natLog2 q.den : ℤ)
  if pow2 k ≤ q then k else k - 1

/-- Round a rational `x ≥ 0` to the nearest natural number, ties to the even one. -/
def roundHalfEven (x : ℚ) : ℕ :=
  let f : ℕ := (x.num / (x.den : ℤ)).toNat
  let r : ℚ := x - (f : ℚ)
  if r < 1 / 2 then f
  else if 1 / 2 < r then f + 1
  else if f % 2 = 0 then f
  else f + 1

/-- A binary floating-point format: precision in bits, least and greatest exponent of a
normal number. -/
structure Format where
  prec : ℕ
  emin : ℤ
  emax : ℤ

/-- The format of `float`. -/
def binary32 : Format := { prec := 24, emin := -126, emax := 127 }

/-- The format of `double`. -/
def binary64 : Format := { prec := 53, emin := -1022, emax := 1023 }

/-- Round the magnitude `q ≥ 0` to the format, to nearest, ties to even: `q` is rounded to a
multiple of `2 ^ (e - prec + 1)`, where `e` is the exponent of `q`, or `emin` when `q` is
below the normal range; `none` when the result is beyond the greatest finite value. -/
def roundMag (fmt : Format) (q : ℚ) : Option ℚ :=
  if q ≤ 0 then some 0
  else
    let e := max (ilog2 q) fmt.emin
    let u := pow2 (e - ((fmt.prec : ℤ) - 1))
    let m := (roundHalfEven (q / u) : ℚ) * u
    if pow2 (fmt.emax + 1) ≤ m then none else some m

/-- A value of type `float`: NaN, an infinity, or a finite value of sign `neg` and
magnitude `mag ≥ 0`. -/
inductive F32 where
  | nan
  | inf (neg : Bool)
  | fin (neg : Bool) (mag : ℚ)
deriving DecidableEq, Repr

/-- The float of sign `neg` nearest to the magnitude `q`; an infinity on overflow. -/
def F32.round (neg : Bool) (q : ℚ) : F32 :=
  match roundMag binary32 q with
  | none => .inf neg
  | some m => .fin neg m

/-- The product `x * y` of two floats. -/
def F32.mul : F32 → F32 → F32
  | .nan, _ => .nan
  | _, .nan => .nan
  | .inf s, .inf t => .inf (xor s t)
  | .inf s, .fin t k => if k = 0 then .nan else .inf (xor s t)
  | .fin s m, .inf t => if m = 0 then .nan else .inf (xor s t)
  | .fin s m, .fin t k => F32.round (xor s t) (m * k)

/-- The sum `x + y` of two floats. -/
def F32.add : F32 → F32 → F32
  | .nan, _ => .nan
  | _, .nan => .nan
  | .inf s, .inf t => if s = t then .inf s else .nan
  | .inf s, .fin _ _ => .inf s
  | .fin _ _, .inf t => .inf t
  | .fin s m, .fin t k =>
    if s = t then F32.round s (m + k)
    else if k < m then F32.round s (m - k)
    else if m < k then F32.round t (k - m)
    else .fin false 0

/-- The number a finite float stands for. -/
def F32.signed (neg : Bool) (mag : ℚ) : ℚ := if neg then -mag else mag

/-- The comparison `x <= y` of two floats. -/
def F32.le : F32 → F32 → Bool
  | .nan, _ => false
  | _, .nan => false
  | .inf s, .inf t => s || !t
  | .inf s, .fin _ _ => s
  | .fin _ _, .inf t => !t
  | .fin s m, .fin t k => decide (F32.signed s m ≤ F32.signed t k)

/-- The comparison `x < y` of two floats. -/
def F32.lt : F32 → F32 → Bool
  | .nan, _ => false
  | _, .nan => false
  | .inf s, .inf t => s && !t
  | .inf s, .fin _ _ => s
  | .fin _ _, .inf t => !t
  | .fin s m, .fin t k => decide (F32.signed s m < F32.signed t k)

/-- The value is one a `float` can hold: a finite magnitude is a binary32 number, that is,
rounding leaves it unchanged. -/
def F32.Valid : F32 → Bool
  | .fin _ m => decide (roundMag binary32 m = some m)
  | _ => true

/-- The constant `0.0f`. -/
def zero32 : F32 := .fin false 0

/-- The constant `-1.0f`. -/
def negOne32 : F32 := .fin true 1

/-- The constant `-0.95f`. -/
def restitution32 : F32 := F32.round true 0.95

/-- The variable `float a = gravitational_acceleration;`: the `double` nearest to `-9.81`,
converted to `float`. -/
def a32 : F32 :=
  match roundMag binary64 9.81 with
  | none => .inf true
  | some d => F32.round true d

/-- The `float` variables `v` and `y` of the frame loop, and the `COLLISION` lines written
to `std::cout` so far. -/
structure PhysicsState32 where
  v : F32
  y : F32
  cout : List String
deriving DecidableEq, Repr

/-- The declarations `float v = 0.0f; float y = 0.0f;` on entry to the frame loop. -/
def initialState32 : PhysicsState32 := { v := zero32, y := zero32, cout := [] }

/-- Lines 281-289 in binary32 arithmetic: `v += a * dt; y += v * dt;` followed by the
collision test. -/
def physicsUpdate32 (a dt : F32) (s : PhysicsState32) : PhysicsState32 :=
  let v := s.v.add (a.mul dt)
  let y := s.y.add (v.mul dt)
  if y.le negOne32 then
    { v := v.mul restitution32, y := negOne32, cout := push_back s.cout ("COLLISION") }
  else
    { v := v, y := y, cout := s.cout }

/-- The frame loop of `main` in binary32 arithmetic: one `physicsUpdate32` per iteration,
with the `dt` measured in that iteration. -/
def frameLoop32 (a : F32) (dts : List F32) (s : PhysicsState32) : PhysicsState32 :=
  dts.foldl (fun s dt => physicsUpdate32 a dt s) s

/-- Sign `neg`, not zero, not NaN. -/
def F32.Strict (neg : Bool) (x : F32) : Prop :=
  x = .inf neg ∨ ∃ m, x = .fin neg m ∧ pow2 (-149) ≤ m

/-- Zero or negative, not NaN. -/
def F32.NonPos (x : F32) : Prop :=
  x = .fin false 0 ∨ x = .fin true 0 ∨ F32.Strict true x

/-- NaN, infinite, zero, or of magnitude at least `2 ^ (-149)`. -/
def F32.Grained : F32 → Prop
  | .fin _ m => m = 0 ∨ pow2 (-149) ≤ m
  | _ => True

/-! ## GPU resource wrappers (lines 50-153) and their lifetime in `main` -/

/-- The GL calls that hand out or take back a handle, with the handle concerned. -/
inductive GLCall where
  | glCreateShader (id : ℕ)
  | glCreateProgram (id : ℕ)
  | glGenBuffers (id : ℕ)
  | glGenVertexArrays (id : ℕ)
  | glDeleteShader (id : ℕ)
  | glDeleteProgram (id : ℕ)
  | glDeleteBuffers (id : ℕ)
  | glDeleteVertexArrays (id : ℕ)
deriving DecidableEq, Repr

/-- What the wrappers do to the outside: the create/delete calls issued so far and the trace
lines written to `std::cout`.  (Compile and link diagnostics are left out.) -/
structure GLLog where
  calls : List GLCall
  cout : List String
deriving DecidableEq, Repr

/-- The class `Shader`: its one data member `GLuint m_id`. -/
structure Shader where
  m_id : ℕ
deriving DecidableEq, Repr

/-- The class `Program`. -/
structure Program where
  m_id : ℕ
deriving DecidableEq, Repr

/-- The class `Buffer`. -/
structure Buffer where
  m_id : ℕ
deriving DecidableEq, Repr

/-- The class `VertexArray`. -/
structure VertexArray where
  m_id : ℕ
deriving DecidableEq, Repr

/-- Constructor `Shader::Shader`; `handle` is what `glCreateShader` returns. -/
def Shader.construct (handle : ℕ) (gl : GLLog) : Shader × GLLog :=
  ({ m_id := handle },
   { calls := push_back gl.calls (.glCreateShader handle),
     cout := push_back gl.cout ("Creating shader...") })

/-- The implicitly generated copy constructor of `Shader`: copies `m_id`, calls nothing. -/
def Shader.copy (other : Shader) (gl : GLLog) : Shader × GLLog :=
  ({ m_id := other.m_id }, gl)

/-- Destructor `Shader::~Shader`, lines 67-72.  The instance is returned as the destructor
leaves it: `m_id` is not written. -/
def Shader.destroy (self : Shader) (gl : GLLog) : Shader × GLLog :=
  let gl := { gl with cout := push_back gl.cout ("Deleting shader...") }
  if self.m_id ≠ 0 then
    (self, { gl with calls := push_back gl.calls (.glDeleteShader self.m_id) })
  else
    (self, gl)

/-- Body of the constructor `Program::Program`, entered with its two by-value parameters
already initialised; `handle` is what `glCreateProgram` returns. -/
def Program.construct (_vertexShader _fragmentShader : Shader) (handle : ℕ) (gl : GLLog) :
    Program × GLLog :=
  ({ m_id := handle },
   { calls := push_back gl.calls (.glCreateProgram handle),
     cout := push_back gl.cout ("Creating program...") })

/-- Destructor `Program::~Program`, lines 98-103. -/
def Program.destroy (self : Program) (gl : GLLog) : Program × GLLog :=
  if self.m_id ≠ 0 then
    (self, { calls := push_back gl.calls (.glDeleteProgram self.m_id),
             cout := push_back gl.cout ("Deleting program...") })
  else
    (self, gl)

/-- Constructor `Buffer::Buffer`; `handle` is what `glGenBuffers` stores in `m_id`. -/
def Buffer.construct (handle : ℕ) (gl : GLLog) : Buffer × GLLog :=
  ({ m_id := handle },
   { calls := push_back gl.calls (.glGenBuffers handle),
     cout := push_back gl.cout ("Creating buffer...") })

/-- Destructor `Buffer::~Buffer`, lines 120-125. -/
def Buffer.destroy (self : Buffer) (gl : GLLog) : Buffer × GLLog :=
  if self.m_id ≠ 0 then
    (self, { calls := push_back gl.calls (.glDeleteBuffers self.m_id),
             cout := push_back gl.cout ("Deleting buffer...") })
  else
    (self, gl)

/-- Constructor `VertexArray::VertexArray`; `handle` is what `glGenVertexArrays` stores in
`m_id`. -/
def VertexArray.construct (handle : ℕ) (gl : GLLog) : VertexArray × GLLog :=
  ({ m_id := handle },
   { calls := push_back gl.calls (.glGenVertexArrays handle),
     cout := push_back gl.cout ("Creating vertex array...") })

/-- Destructor `VertexArray::~VertexArray`, lines 142-147. -/
def VertexArray.destroy (self : VertexArray) (gl : GLLog) : VertexArray × GLLog :=
  if self.m_id ≠ 0 then
    (self, { calls := push_back gl.calls (.glDeleteVertexArrays self.m_id),
             cout := push_back gl.cout ("Deleting array...") })
  else
    (self, gl)

/-- A wrapper instance of any of the four classes. -/
inductive Wrapper where
  | shader (s : Shader)
  | program (p : Program)
  | buffer (b : Buffer)
  | vertexArray (a : VertexArray)
deriving DecidableEq, Repr

/-- The handle an instance holds. -/
def Wrapper.m_id : Wrapper → ℕ
  | .shader s => s.m_id
  | .program p => p.m_id
  | .buffer b => b.m_id
  | .vertexArray a => a.m_id

/-- The destructor of an instance, by class. -/
def Wrapper.destroy : Wrapper → GLLog → GLLog
  | .shader s, gl => (Shader.destroy s gl).2
  | .program p, gl => (Program.destroy p gl).2
  | .buffer b, gl => (Buffer.destroy b gl).2
  | .vertexArray a, gl => (VertexArray.destroy a gl).2

/-- A point of the run: the instances whose lifetime has begun and not ended (local
variables and by-value parameters), and the effects so far. -/
structure World where
  live : List Wrapper
  gl : GLLog
deriving DecidableEq, Repr

/-- An instance starts its lifetime. -/
def World.enter (w : World) (obj : Wrapper) (gl : GLLog) : World :=
  { live := obj :: w.live, gl := gl }

/-- An instance ends its lifetime: its destructor runs and it leaves the live set. -/
def World.leave (w : World) (obj : Wrapper) : World :=
  { live := w.live.erase obj, gl := obj.destroy w.gl }

/-- The handles the GL driver hands out to `main`, in the order of lines 249-257. -/
structure Handles where
  VBO : ℕ
  EBO : ℕ
  vertexShader : ℕ
  fragmentShader : ℕ
  shaderProgram : ℕ
  VAO : ℕ

/-- The wrapper lifetimes of `main`: the list of points of the run, one after each
construction, copy or destruction.  Lines 249-257 construct `VBO`, `EBO`, `vertexShader`,
`fragmentShader`, `shaderProgram` and `VAO`; the call on line 255 passes both shaders by
value, so each is copied into a parameter that is destroyed when the call is over; the frame
loop constructs and destroys nothing; `return 0` destroys the six locals in reverse order of
declaration. -/
def mainResources (h : Handles) : List World :=
  let w0 : World := { live := [], gl := { calls := [], cout := [] } }
  -- line 249: Buffer VBO(...)
  let VBO := Buffer.construct h.VBO w0.gl
  let w1 := w0.enter (.buffer VBO.1) VBO.2
  -- line 251: Buffer EBO(...)
  let EBO := Buffer.construct h.EBO w1.gl
  let w2 := w1.enter (.buffer EBO.1) EBO.2
  -- line 253: Shader vertexShader(...)
  let vertexShader := Shader.construct h.vertexShader w2.gl
  let w3 := w2.enter (.shader vertexShader.1) vertexShader.2
  -- line 254: Shader fragmentShader(...)
  let fragmentShader := Shader.construct h.fragmentShader w3.gl
  let w4 := w3.enter (.shader fragmentShader.1) fragmentShader.2
  -- line 255: Program shaderProgram(vertexShader, fragmentShader): the two parameters
  let vertexShaderArg := Shader.copy vertexShader.1 w4.gl
  let w5 := w4.enter (.shader vertexShaderArg.1) vertexShaderArg.2
  let fragmentShaderArg := Shader.copy fragmentShader.1 w5.gl
  let w6 := w5.enter (.shader fragmentShaderArg.1) fragmentShaderArg.2
  -- line 255: the constructor body
  let shaderProgram :=
    Program.construct vertexShaderArg.1 fragmentShaderArg.1 h.shaderProgram w6.gl
  let w7 := w6.enter (.program shaderProgram.1) shaderProgram.2
  -- line 255: the two parameters are destroyed
  let w8 := w7.leave (.shader fragmentShaderArg.1)
  let w9 := w8.leave (.shader vertexShaderArg.1)
  -- line 257: VertexArray VAO
  let VAO := VertexArray.construct h.VAO w9.gl
  let w10 := w9.enter (.vertexArray VAO.1) VAO.2
  -- line 368: return 0
  let w11 := w10.leave (.vertexArray VAO.1)
  let w12 := w11.leave (.program shaderProgram.1)
  let w13 := w12.leave (.shader fragmentShader.1)
  let w14 := w13.leave (.shader vertexShader.1)
  let w15 := w14.leave (.buffer EBO.1)
  let w16 := w15.leave (.buffer VBO.1)
  [w0, w1, w2, w3, w4, w5, w6, w7, w8, w9, w10, w11, w12, w13, w14, w15, w16]

/-- At this point of the run no non-zero handle is held by two live instances. -/
def World.exclusive (w : World) : Bool :=
  w.live.all (fun obj => decide (obj.m_id = 0 ∨ w.live.count obj ≤ 1))

/-- The release call that gives back what an acquire call handed out. -/
def GLCall.release? : GLCall → Option GLCall
  | .glCreateShader id => some (.glDeleteShader id)
  | .glCreateProgram id => some (.glDeleteProgram id)
  | .glGenBuffers id => some (.glDeleteBuffers id)
  | .glGenVertexArrays id => some (.glDeleteVertexArrays id)
  | _ => none

/-- The handle a call is about. -/
def GLCall.id : GLCall → ℕ
  | .glCreateShader id => id
  | .glCreateProgram id => id
  | .glGenBuffers id => id
  | .glGenVertexArrays id => id
  | .glDeleteShader id => id
  | .glDeleteProgram id => id
  | .glDeleteBuffers id => id
  | .glDeleteVertexArrays id => id

/-- Every non-zero handle acquired in `calls` is released exactly once in `calls`. -/
def releasedExactlyOnce (calls : List GLCall) : Bool :=
  calls.all (fun c =>
    match c.release? with
    | some d => decide (c.id = 0 ∨ calls.count d = 1)
    | none => true)

/-- The end of the run of `main`. -/
def mainEnd (h : Handles) : World :=
  (mainResources h).getLastD { live := [], gl := { calls := [], cout := [] } }

/-- A destructor body run twice on the same instance. -/
def destroyTwice {β : Type} (destroy : β → GLLog → β × GLLog) (self : β) (gl : GLLog) :
    β × GLLog :=
  destroy (destroy self gl).1 (destroy self gl).2

/-! ## Loop characterisations: proofs -/

theorem vertexLoop_eq {α : Type} [Field α] (sin cos : α → α) (pi : α) (n : ℕ) (r : α) :
    ∀ (d i : ℕ) (vs : List α), n * 2 - i = d →
      vertexLoop sin cos pi n r i vs
        = vs ++ (List.range' i d).flatMap (perimeterVertex sin cos pi n r) := by
  intro d
  induction d with
  | zero =>
    intro i vs h
    rw [vertexLoop, if_neg (by omega)]
    simp
  | succ d ih =>
    intro i vs h
    rw [vertexLoop, if_pos (by omega)]
    simp only []
    rw [ih (i + 1) _ (by omega)]
    simp [push_back, perimeterVertex, List.range'_succ]

theorem indexLoop_eq (n : ℕ) :
    ∀ (d i : ℕ) (is : List ℕ), n * 2 + 1 - i = d →
      indexLoop n i is = is ++ (List.range' i d).flatMap (fanTriangle n) := by
  intro d
  induction d with
  | zero =>
    intro i is h
    rw [indexLoop, if_neg (by omega)]
    simp
  | succ d ih =>
    intro i is h
    rw [indexLoop, if_pos (by omega)]
    simp only []
    rw [ih (i + 1) _ (by omega)]
    by_cases hlt : i < n * 2 <;> simp [push_back, fanTriangle, List.range'_succ, hlt]

theorem vertices_eq {α : Type} [Field α] (sin cos : α → α) (pi : α) (n : ℕ) (r : α) :
    vertices sin cos pi n r
      = originVertex α ++ (List.range' 0 (n * 2)).flatMap (perimeterVertex sin cos pi n r) :=
  vertexLoop_eq sin cos pi n r (n * 2) 0 _ (by omega)

theorem indices_eq (n : ℕ) :
    indices n = (List.range' 1 (n * 2)).flatMap (fanTriangle n) := by
  rw [indices, indexLoop_eq n (n * 2) 1 [] (by omega)]
  simp

/-- Length of a concatenation of blocks that all have the same length. -/
theorem length_flatMap_const {β : Type} (f : ℕ → List β) (c : ℕ) (hf : ∀ i, (f i).length = c) :
    ∀ (m s : ℕ), ((List.range' s m).flatMap f).length = c * m := by
  intro m
  induction m with
  | zero => intro s; simp
  | succ m ih =>
    intro s
    simp [List.range'_succ, ih, hf, Nat.mul_succ]
    omega

/-- Element `c * k + j` of a concatenation of length-`c` blocks is element `j` of block `k`. -/
theorem getElem?_flatMap_const {β : Type} (f : ℕ → List β) (c : ℕ)
    (hf : ∀ i, (f i).length = c) :
    ∀ (m s k j : ℕ), k < m → j < c →
      ((List.range' s m).flatMap f)[c * k + j]? = (f (s + k))[j]? := by
  intro m
  induction m with
  | zero => intro s k j hk; omega
  | succ m ih =>
    intro s k j hk hj
    rw [List.range'_succ, List.flatMap_cons]
    cases k with
    | zero =>
      rw [List.getElem?_append_left (by simp [hf]; omega)]
      simp
    | succ k =>
      rw [List.getElem?_append_right (by simp [hf, Nat.mul_succ]; omega)]
      have h1 : c * (k + 1) + j - (f s).length = c * k + j := by
        rw [hf, Nat.mul_succ]; omega
      rw [h1, ih (s + 1) k j (by omega) hj]
      congr 2
      omega


/-! ### Reads of the generated mesh -/

theorem length_perimeterVertex {α : Type} [Field α] (sin cos : α → α) (pi : α) (n : ℕ) (r : α)
    (i : ℕ) : (perimeterVertex sin cos pi n r i).length = 6 := rfl

theorem length_fanTriangle (n i : ℕ) : (fanTriangle n i).length = 3 := rfl

theorem length_vertices {α : Type} [Field α] (sin cos : α → α) (pi : α) (n : ℕ) (r : α) :
    (vertices sin cos pi n r).length = 6 * (1 + 2 * n) := by
  rw [vertices_eq, List.length_append,
    length_flatMap_const _ 6 (length_perimeterVertex sin cos pi n r)]
  simp [originVertex, push_back]
  omega

theorem length_indices (n : ℕ) : (indices n).length = 6 * n := by
  rw [indices_eq, length_flatMap_const _ 3 (length_fanTriangle n)]
  omega

/-- Index `j` of triangle `t` is index `j` of the block appended by iteration `t + 1`. -/
theorem indices_getElem? (n t j : ℕ) (ht : t < 2 * n) (hj : j < 3) :
    (indices n)[t * 3 + j]? = (fanTriangle n (t + 1))[j]? := by
  rw [indices_eq, Nat.mul_comm t 3,
    getElem?_flatMap_const _ 3 (length_fanTriangle n) (n * 2) 1 t j (by omega) hj]
  congr 2
  omega

theorem mem_indices (n x : ℕ) (hx : x ∈ indices n) : x ≤ 2 * n := by
  rw [indices_eq, List.mem_flatMap] at hx
  obtain ⟨i, hi, hxi⟩ := hx
  rw [List.mem_range'_1] at hi
  simp only [fanTriangle, List.mem_cons, List.mem_singleton, List.not_mem_nil, or_false] at hxi
  rcases hxi with h | h | h
  · omega
  · omega
  · split at h <;> omega

theorem wrapInt_natCast (m : ℕ) (h : m < 2147483648) : wrapInt (m : ℤ) = (m : ℤ) := by
  unfold wrapInt
  omega

theorem toUnsigned_natCast (m : ℕ) (h : m < 4294967296) : toUnsigned (m : ℤ) = m := by
  unfold toUnsigned
  omega

/-- Below `2^30` the `int` product `step_rad * 2` does not overflow and the vertex loop in
`int` arithmetic does what the loop on exact counters does. -/
theorem vertexLoop32_eq {α : Type} [Field α] (sin cos : α → α) (pi : α) (n : ℕ) (r : α)
    (hn : n < 1073741824) :
    ∀ (d i : ℕ) (vs : List α), n * 2 - i = d →
      vertexLoop32 sin cos pi (n : ℤ) r (i : ℤ) vs = vertexLoop sin cos pi n r i vs := by
  have hb : wrapInt ((n : ℤ) * 2) = ((n * 2 : ℕ) : ℤ) := by
    have := wrapInt_natCast (n * 2) (by omega)
    simpa using this
  intro d
  induction d with
  | zero =>
    intro i vs h
    rw [vertexLoop32, vertexLoop, hb, if_neg (by omega), if_neg (by omega)]
  | succ d ih =>
    intro i vs h
    have hi : wrapInt ((i : ℤ) + 1) = ((i + 1 : ℕ) : ℤ) := by
      have := wrapInt_natCast (i + 1) (by omega)
      simpa using this
    rw [vertexLoop32, vertexLoop, hb, if_pos (by omega), if_pos (by omega)]
    simp only [hi, Int.cast_natCast]
    exact ih (i + 1) _ (by omega)

/-- Below `2^30` the index loop in `int` arithmetic does what the loop on exact counters
does. -/
theorem indexLoop32_eq (n : ℕ) (hn : n < 1073741824) :
    ∀ (d i : ℕ) (is : List ℕ), n * 2 + 1 - i = d → i ≤ n * 2 + 1 →
      indexLoop32 (n : ℤ) (i : ℤ) is = indexLoop n i is := by
  have hb : wrapInt ((n : ℤ) * 2) = ((n * 2 : ℕ) : ℤ) := by
    have := wrapInt_natCast (n * 2) (by omega)
    simpa using this
  intro d
  induction d with
  | zero =>
    intro i is h hi
    rw [indexLoop32, indexLoop, hb, if_neg (by omega), if_neg (by omega)]
  | succ d ih =>
    intro i is h hi
    have hi1 : wrapInt ((i : ℤ) + 1) = ((i + 1 : ℕ) : ℤ) := by
      have := wrapInt_natCast (i + 1) (by omega)
      simpa using this
    have hlt : ((i : ℤ) < ((n * 2 : ℕ) : ℤ)) ↔ i < n * 2 := by omega
    rw [indexLoop32, indexLoop, hb, if_pos (by omega), if_pos (by omega)]
    simp only [hi1, hlt, toUnsigned_natCast i (by omega), toUnsigned_natCast (i + 1) (by omega)]
    exact ih (i + 1) _ (by omega) (by omega)

theorem vertices32_eq {α : Type} [Field α] (sin cos : α → α) (pi : α) (n : ℕ) (r : α)
    (hn : n < 1073741824) :
    vertices32 sin cos pi (n : ℤ) r = vertices sin cos pi n r := by
  have h := vertexLoop32_eq sin cos pi n r hn (n * 2) 0 (originVertex α) (by omega)
  simpa [vertices32, vertices] using h

theorem indices32_eq (n : ℕ) (hn : n < 1073741824) : indices32 (n : ℤ) = indices n := by
  have h := indexLoop32_eq n hn (n * 2) 1 [] (by omega) (by omega)
  simpa [indices32, indices] using h

/-- At `step_rad = 2^30` the `int` product `step_rad * 2` is `-2^31`: neither loop runs. -/
theorem mesh32_overflow (r : ℝ) :
    vertices32 Real.sin Real.cos Real.pi 1073741824 r = originVertex ℝ ∧
    indices32 1073741824 = [] := by
  have hb : wrapInt (1073741824 * 2) = -2147483648 := by decide
  constructor
  · rw [vertices32, vertexLoop32, hb, if_neg (by decide)]
  · rw [indices32, indexLoop32, hb, if_neg (by decide)]

/-! ## Claims on mesh generation -/

/-- C1, disproved as stated: at `n = 2^30`, `r = 1` the `int` product `step_rad * 2`
overflows to `-2^31`, no loop iteration runs, and the vertex array holds the 6 floats of
the origin vertex and the index array is empty, not `6 * (1 + 2n)` floats and `6n`
indices. -/
theorem C1_counterexample :
    (vertices32 Real.sin Real.cos Real.pi 1073741824 (1 : ℝ)).length = 6 ∧
    (indices32 1073741824).length = 0 ∧
    ¬ (∀ (n : ℕ) (r : ℝ), 1 ≤ n → 0 < r →
        (vertices32 Real.sin Real.cos Real.pi (n : ℤ) r).length = 6 * (1 + 2 * n) ∧
        (vertices32 Real.sin Real.cos Real.pi (n : ℤ) r).length / 6 = 1 + 2 * n ∧
        (indices32 (n : ℤ)).length = 6 * n ∧
        (indices32 (n : ℤ)).length / 3 = 2 * n ∧
        ∀ x ∈ indices32 (n : ℤ), x < 1 + 2 * n) := by
  have h := mesh32_overflow 1
  have hv : (vertices32 Real.sin Real.cos Real.pi 1073741824 (1 : ℝ)).length = 6 := by
    rw [h.1]; rfl
  have hi : (indices32 1073741824).length = 0 := by rw [h.2]; rfl
  refine ⟨hv, hi, ?_⟩
  intro hall
  have h3 := (hall 1073741824 1 (by decide) (by norm_num)).2.2.1
  simp only [Nat.cast_ofNat] at h3
  rw [hi] at h3
  omega

/-- C1, amended to `1 ≤ n < 2^30` (so that the `int` product `step_rad * 2` does not
overflow): for every such `n` and every `r > 0` the vertex array holds `6 * (1 + 2n)`
floats, that is `1 + 2n` vertices; the index array holds `6n` indices, that is `2n`
triangles; and every index is strictly below the vertex count `1 + 2n`. -/
theorem C1_mesh_counts (n : ℕ) (r : ℝ) (_hn : 1 ≤ n) (hn : n < 2 ^ 30) (_hr : 0 < r) :
    (vertices32 Real.sin Real.cos Real.pi (n : ℤ) r).length = 6 * (1 + 2 * n) ∧
    (vertices32 Real.sin Real.cos Real.pi (n : ℤ) r).length / 6 = 1 + 2 * n ∧
    (indices32 (n : ℤ)).length = 6 * n ∧
    (indices32 (n : ℤ)).length / 3 = 2 * n ∧
    ∀ x ∈ indices32 (n : ℤ), x < 1 + 2 * n := by
  have hn' : n < 1073741824 := by simpa using hn
  rw [vertices32_eq _ _ _ n r hn', indices32_eq n hn']
  refine ⟨length_vertices _ _ _ n r, ?_, length_indices n, ?_, ?_⟩
  · rw [length_vertices]; omega
  · rw [length_indices]; omega
  · intro x hx
    have := mem_indices n x hx
    omega

/-- C1 (amended) at `n = 4`, `r = 1`: 54 floats (9 vertices), 24 indices (8 triangles),
every index below 9. -/
theorem C1_mesh_counts_witness :
    1 ≤ 4 ∧ 4 < 2 ^ 30 ∧ (0 : ℝ) < 1 ∧
    (vertices32 Real.sin Real.cos Real.pi ((4 : ℕ) : ℤ) (1 : ℝ)).length = 54 ∧
    (vertices32 Real.sin Real.cos Real.pi ((4 : ℕ) : ℤ) (1 : ℝ)).length / 6 = 9 ∧
    (indices32 ((4 : ℕ) : ℤ)).length = 24 ∧
    (indices32 ((4 : ℕ) : ℤ)).length / 3 = 8 ∧
    ∀ x ∈ indices32 ((4 : ℕ) : ℤ), x < 9 :=
  ⟨by decide, by norm_num, by norm_num,
    C1_mesh_counts 4 1 (by decide) (by norm_num) (by norm_num)⟩

/-- C2, disproved as stated: at `n = 2^30` the index loop does not run, so the first index
triple (`k = 1`) does not exist: reading `indices[0]` finds nothing, not `0`. -/
theorem C2_counterexample :
    (indices32 1073741824)[0]? = none ∧
    ¬ (∀ (n k : ℕ), 1 ≤ n → 1 ≤ k → k ≤ 2 * n →
        (indices32 (n : ℤ))[3 * (k - 1)]? = some 0 ∧
        (indices32 (n : ℤ))[3 * (k - 1) + 1]? = some k ∧
        (k < 2 * n → (indices32 (n : ℤ))[3 * (k - 1) + 2]? = some (k + 1)) ∧
        (k = 2 * n → (indices32 (n : ℤ))[3 * (k - 1) + 2]? = some 1)) := by
  have h := (mesh32_overflow 1).2
  have h0 : (indices32 1073741824)[0]? = none := by rw [h]; rfl
  refine ⟨h0, ?_⟩
  intro hall
  have h1 := (hall 1073741824 1 (by decide) (by decide) (by decide)).1
  simp only [Nat.cast_ofNat] at h1
  rw [h] at h1
  simp at h1

/-- C2, amended to `1 ≤ n < 2^30`: the index array is a triangle fan around vertex 0: for
`1 ≤ k ≤ 2n` the `k`-th index triple is `(0, k, k + 1)` when `k < 2n` and `(0, 2n, 1)` when
`k = 2n`. -/
theorem C2_triangle_fan (n k : ℕ) (_hn : 1 ≤ n) (hn : n < 2 ^ 30) (hk1 : 1 ≤ k)
    (hk2 : k ≤ 2 * n) :
    (indices32 (n : ℤ))[3 * (k - 1)]? = some 0 ∧
    (indices32 (n : ℤ))[3 * (k - 1) + 1]? = some k ∧
    (k < 2 * n → (indices32 (n : ℤ))[3 * (k - 1) + 2]? = some (k + 1)) ∧
    (k = 2 * n → (indices32 (n : ℤ))[3 * (k - 1) + 2]? = some 1) := by
  have hn' : n < 1073741824 := by simpa using hn
  rw [indices32_eq n hn']
  obtain ⟨t, rfl⟩ : ∃ t, k = t + 1 := ⟨k - 1, by omega⟩
  have h0 := indices_getElem? n t 0 (by omega) (by omega)
  have h1 := indices_getElem? n t 1 (by omega) (by omega)
  have h2 := indices_getElem? n t 2 (by omega) (by omega)
  simp only [Nat.add_zero, Nat.mul_comm t 3] at h0 h1 h2
  simp only [Nat.add_sub_cancel]
  refine ⟨?_, ?_, ?_, ?_⟩
  · rw [h0]; simp [fanTriangle]
  · rw [h1]; simp [fanTriangle]
  · intro hlt
    rw [h2]
    have : t + 1 < n * 2 := by omega
    simp [fanTriangle, this]
  · intro heq
    rw [h2]
    have : ¬ (t + 1 < n * 2) := by omega
    simp [fanTriangle, this]

/-- C2 (amended) at `n = 2`: triangle 1 is `(0, 1, 2)` and the last triangle, `k = 4`, is
`(0, 4, 1)`. -/
theorem C2_triangle_fan_witness :
    ((indices32 ((2 : ℕ) : ℤ))[3 * (1 - 1)]? = some 0 ∧
     (indices32 ((2 : ℕ) : ℤ))[3 * (1 - 1) + 1]? = some 1 ∧
     (indices32 ((2 : ℕ) : ℤ))[3 * (1 - 1) + 2]? = some (1 + 1)) ∧
    ((indices32 ((2 : ℕ) : ℤ))[3 * (4 - 1)]? = some 0 ∧
     (indices32 ((2 : ℕ) : ℤ))[3 * (4 - 1) + 1]? = some 4 ∧
     (indices32 ((2 : ℕ) : ℤ))[3 * (4 - 1) + 2]? = some 1) :=
  ⟨⟨(C2_triangle_fan 2 1 (by decide) (by norm_num) (by decide) (by decide)).1,
    (C2_triangle_fan 2 1 (by decide) (by norm_num) (by decide) (by decide)).2.1,
    (C2_triangle_fan 2 1 (by decide) (by norm_num) (by decide) (by decide)).2.2.1 (by decide)⟩,
   ⟨(C2_triangle_fan 2 4 (by decide) (by norm_num) (by decide) (by decide)).1,
    (C2_triangle_fan 2 4 (by decide) (by norm_num) (by decide) (by decide)).2.1,
    (C2_triangle_fan 2 4 (by decide) (by norm_num) (by decide) (by decide)).2.2.2
      (by decide)⟩⟩

theorem physicsUpdate_clamp (a dt : ℚ) (s : PhysicsState)
    (h : s.y + (s.v + a * dt) * dt ≤ -1) :
    physicsUpdate a dt s
      = { v := -0.95 * (s.v + a * dt), y := -1, cout := s.cout ++ ["COLLISION"] } := by
  have h' : s.y + (s.v + a * dt) * dt ≤ -1.0 := by norm_num; exact h
  simp only [physicsUpdate, if_pos h', push_back]
  congr 1
  · ring
  · norm_num

theorem frameLoop_append (a : ℚ) (dts : List ℚ) (d : ℚ) (s : PhysicsState) :
    frameLoop a (dts ++ [d]) s = physicsUpdate a d (frameLoop a dts s) := by
  simp [frameLoop, List.foldl_append]

theorem constantRun_succ (k : ℕ) :
    constantRun (k + 1) = physicsUpdate gravitational_acceleration 0.1 (constantRun k) := by
  simp [constantRun, List.replicate_succ', frameLoop_append]

/-- Once the ball lies on the floor with an upward velocity below `0.981`, the next frame
of the constant-timestep run clamps again and leaves it in such a state. -/
theorem settled_step (s : PhysicsState) (hy : s.y = -1) (hv0 : 0 < s.v) (hv1 : s.v < 0.981) :
    (physicsUpdate gravitational_acceleration 0.1 s).y = -1 ∧
    0 < (physicsUpdate gravitational_acceleration 0.1 s).v ∧
    (physicsUpdate gravitational_acceleration 0.1 s).v < 0.981 ∧
    (physicsUpdate gravitational_acceleration 0.1 s).cout = s.cout ++ ["COLLISION"] := by
  have h : s.y + (s.v + gravitational_acceleration * 0.1) * 0.1 ≤ -1 := by
    rw [hy]; norm_num [gravitational_acceleration] at hv1 ⊢; linarith
  rw [physicsUpdate_clamp _ _ _ h]
  norm_num [gravitational_acceleration] at hv1 ⊢
  constructor <;> linarith

theorem settled_from_49 (k : ℕ) (hk : 49 ≤ k) :
    (constantRun k).y = -1 ∧ 0 < (constantRun k).v ∧ (constantRun k).v < 0.981 := by
  induction k, hk using Nat.le_induction with
  | base => decide!
  | succ k _ ih =>
    rw [constantRun_succ]
    have h := settled_step (constantRun k) ih.1 ih.2.1 ih.2.2
    exact ⟨h.1, h.2.1, h.2.2.1⟩

/-! ## Binary32 arithmetic: lemmas -/

theorem pow2_eq_zpow (e : ℤ) : pow2 e = (2 : ℚ) ^ e := by
  unfold pow2
  split
  · rename_i h
    have he : e = ((e.toNat : ℕ) : ℤ) := (Int.toNat_of_nonneg h).symm
    conv_rhs => rw [he]
    rw [zpow_natCast]
    push_cast
    rfl
  · rename_i h
    have he : e = -(((-e).toNat : ℕ) : ℤ) := by
      rw [Int.toNat_of_nonneg (by omega)]; ring
    conv_rhs => rw [he]
    rw [zpow_neg, zpow_natCast]
    push_cast
    rw [one_div]

theorem pow2_pos (e : ℤ) : 0 < pow2 e := by
  rw [pow2_eq_zpow]; exact zpow_pos (by norm_num) e

theorem pow2_mono {e e' : ℤ} (h : e ≤ e') : pow2 e ≤ pow2 e' := by
  rw [pow2_eq_zpow, pow2_eq_zpow]; exact zpow_le_zpow_right₀ (by norm_num) h

theorem pow2_succ (e : ℤ) : pow2 (e + 1) = 2 * pow2 e := by
  rw [pow2_eq_zpow, pow2_eq_zpow, zpow_add₀ (by norm_num)]; ring

theorem log2Fuel_le : ∀ (fuel n : ℕ), n ≤ fuel → n ≠ 0 → 2 ^ log2Fuel fuel n ≤ n
  | 0, n, h, hn => by omega
  | fuel + 1, n, h, hn => by
    simp only [log2Fuel]
    split
    · have ih := log2Fuel_le fuel (n / 2) (by omega) (by omega)
      rw [pow_succ]
      omega
    · simp
      omega

theorem lt_log2Fuel : ∀ (fuel n : ℕ), n ≤ fuel → n < 2 ^ (log2Fuel fuel n + 1)
  | 0, n, h => by simp [log2Fuel]; omega
  | fuel + 1, n, h => by
    simp only [log2Fuel]
    split
    · have ih := lt_log2Fuel fuel (n / 2) (by omega)
      rw [pow_succ]
      omega
    · simp
      omega

theorem ilog2_le (q : ℚ) (hq : 0 < q) : pow2 (ilog2 q) ≤ q := by
  unfold ilog2
  simp only
  split
  · assumption
  · have hnum : 0 < q.num := Rat.num_pos.mpr hq
    have ha : q.num.natAbs ≠ 0 := by omega
    have h1 := log2Fuel_le q.num.natAbs q.num.natAbs le_rfl ha
    have h2 := lt_log2Fuel q.den q.den le_rfl
    have hq' : q = (q.num.natAbs : ℚ) / (q.den : ℚ) := by
      have hcast : ((q.num.natAbs : ℕ) : ℚ) = ((q.num : ℤ) : ℚ) := by
        rw [← Int.cast_natCast, Int.natAbs_of_nonneg hnum.le]
      rw [hcast, Rat.num_div_den]
    have hk : ((natLog2 q.num.natAbs : ℕ) : ℤ) - ((natLog2 q.den : ℕ) : ℤ) - 1
        = ((natLog2 q.num.natAbs : ℕ) : ℤ) - ((natLog2 q.den + 1 : ℕ) : ℤ) := by
      push_cast; ring
    rw [hk, pow2_eq_zpow, zpow_sub₀ (by norm_num), zpow_natCast, zpow_natCast]
    conv_rhs => rw [hq']
    have hden : (0 : ℚ) < (q.den : ℚ) := by exact_mod_cast q.den_pos
    apply div_le_div₀ (by positivity) _ hden _
    · unfold natLog2; exact_mod_cast h1
    · unfold natLog2; exact_mod_cast h2.le

theorem roundHalfEven_pos (x : ℚ) (hx : 1 / 2 < x) : 1 ≤ roundHalfEven x := by
  unfold roundHalfEven
  simp only
  by_cases hf : (x.num / (x.den : ℤ)).toNat = 0
  · rw [hf]
    have h1 : ¬ (x - ((0 : ℕ) : ℚ) < 1 / 2) := by
      push_cast; rw [sub_zero]; exact not_lt.mpr hx.le
    have h2 : (1 / 2 : ℚ) < x - ((0 : ℕ) : ℚ) := by
      push_cast; rw [sub_zero]; exact hx
    rw [if_neg h1, if_pos h2]
  · split
    · omega
    · split
      · omega
      · split <;> omega

/-- A magnitude that rounding to binary32 returns is `0` or at least `2 ^ (-149)`; it is
at least `2 ^ (-149)` when the rounded magnitude is above `2 ^ (-150)`. -/
theorem roundMag_binary32 (q m : ℚ) (h : roundMag binary32 q = some m) :
    (m = 0 ∨ pow2 (-149) ≤ m) ∧ (pow2 (-150) < q → pow2 (-149) ≤ m) := by
  unfold roundMag at h
  simp only [binary32] at h
  split at h
  · rename_i hq
    have hm : m = 0 := by injection h with h; exact h.symm
    refine ⟨Or.inl hm, fun hlt => ?_⟩
    exact absurd (lt_of_lt_of_le (pow2_pos _) hlt.le) (not_lt.mpr hq)
  · rename_i hq
    have hq0 : 0 < q := not_le.mp hq
    split at h
    · exact absurd h (by simp)
    · injection h with h
      have hu : pow2 (-149) ≤ pow2 (max (ilog2 q) (-126) - (((24 : ℕ) : ℤ) - 1)) := by
        apply pow2_mono
        have := le_max_right (ilog2 q) (-126)
        push_cast
        omega
      have hu0 := pow2_pos (max (ilog2 q) (-126) - (((24 : ℕ) : ℤ) - 1))
      have key : ∀ n : ℕ, 1 ≤ n →
          pow2 (-149) ≤ (n : ℚ) * pow2 (max (ilog2 q) (-126) - (((24 : ℕ) : ℤ) - 1)) := by
        intro n hn
        have hn' : (1 : ℚ) ≤ (n : ℚ) := by exact_mod_cast hn
        calc pow2 (-149) ≤ pow2 (max (ilog2 q) (-126) - (((24 : ℕ) : ℤ) - 1)) := hu
          _ = 1 * pow2 (max (ilog2 q) (-126) - (((24 : ℕ) : ℤ) - 1)) := (one_mul _).symm
          _ ≤ _ := mul_le_mul_of_nonneg_right hn' hu0.le
      constructor
      · rcases Nat.eq_zero_or_pos
          (roundHalfEven (q / pow2 (max (ilog2 q) (-126) - (((24 : ℕ) : ℤ) - 1)))) with h0 | h1
        · left; rw [← h, h0]; simp
        · right; rw [← h]; exact key _ h1
      · intro hlt
        rw [← h]
        apply key
        apply roundHalfEven_pos
        rw [lt_div_iff₀ hu0]
        rcases le_total (ilog2 q) (-126) with hle | hge
        · rw [max_eq_right hle]
          have h150 : pow2 (-149) = 2 * pow2 (-150) := by
            have := pow2_succ (-150); simpa using this
          have : pow2 (-126 - (((24 : ℕ) : ℤ) - 1)) = pow2 (-149) := by norm_num
          rw [this, h150]
          linarith
        · rw [max_eq_left hge]
          have hle := ilog2_le q hq0
          have hmono : pow2 (ilog2 q - (((24 : ℕ) : ℤ) - 1)) ≤ pow2 (ilog2 q) :=
            pow2_mono (by push_cast; omega)
          have hpos := pow2_pos (ilog2 q - (((24 : ℕ) : ℤ) - 1))
          calc 1 / 2 * pow2 (ilog2 q - (((24 : ℕ) : ℤ) - 1))
              < pow2 (ilog2 q - (((24 : ℕ) : ℤ) - 1)) := by
                rw [one_div, inv_mul_lt_iff₀ (by norm_num)]
                exact lt_mul_of_one_lt_left hpos (by norm_num)
            _ ≤ pow2 (ilog2 q) := hmono
            _ ≤ q := hle

theorem pow2_neg150 : pow2 (-149) = 2 * pow2 (-150) := by
  have := pow2_succ (-150); simpa using this

theorem round_grained (s : Bool) (q : ℚ) : F32.Grained (F32.round s q) := by
  unfold F32.round
  cases h : roundMag binary32 q with
  | none => trivial
  | some m => exact (roundMag_binary32 q m h).1

theorem round_strict (s : Bool) (q : ℚ) (hq : pow2 (-150) < q) : F32.Strict s (F32.round s q) := by
  unfold F32.round
  cases h : roundMag binary32 q with
  | none => exact Or.inl rfl
  | some m => exact Or.inr ⟨m, rfl, (roundMag_binary32 q m h).2 hq⟩

theorem add_grained (x y : F32) : F32.Grained (x.add y) := by
  cases x <;> cases y <;> simp only [F32.add] <;> try trivial
  · split <;> trivial
  · split
    · exact round_grained _ _
    · split
      · exact round_grained _ _
      · split
        · exact round_grained _ _
        · left; rfl

theorem strict_neg_lt (x : F32) (h : F32.Strict true x) : F32.lt x zero32 = true := by
  rcases h with rfl | ⟨m, rfl, hm⟩
  · rfl
  · have := pow2_pos (-149)
    simp only [F32.lt, zero32, F32.signed, decide_eq_true_eq]
    simp
    linarith

theorem strict_pos_lt (x : F32) (h : F32.Strict false x) : F32.lt zero32 x = true := by
  rcases h with rfl | ⟨m, rfl, hm⟩
  · rfl
  · have := pow2_pos (-149)
    simp only [F32.lt, zero32, F32.signed, decide_eq_true_eq]
    simp
    linarith

theorem grained_neg_strict (x : F32) (hg : F32.Grained x) (h : F32.lt x zero32 = true) :
    F32.Strict true x := by
  cases x with
  | nan => simp [F32.lt] at h
  | inf s =>
    simp [F32.lt, zero32] at h
    subst h; exact Or.inl rfl
  | fin s m =>
    have hp := pow2_pos (-149)
    simp only [F32.lt, zero32, F32.signed, decide_eq_true_eq] at h
    cases s with
    | true =>
      simp at h
      rcases hg with h0 | h1
      · exact absurd h0 (ne_of_gt h)
      · exact Or.inr ⟨m, rfl, h1⟩
    | false =>
      simp at h
      rcases hg with h0 | h1
      · exact absurd h0 (ne_of_lt h)
      · linarith

theorem grained_pos_strict (x : F32) (hg : F32.Grained x) (h : F32.lt zero32 x = true) :
    F32.Strict false x := by
  cases x with
  | nan => simp [F32.lt, zero32] at h
  | inf s =>
    simp [F32.lt, zero32] at h
    subst h; exact Or.inl rfl
  | fin s m =>
    have hp := pow2_pos (-149)
    simp only [F32.lt, zero32, F32.signed, decide_eq_true_eq] at h
    cases s with
    | true =>
      simp at h
      rcases hg with h0 | h1
      · exact absurd h0 (ne_of_lt h)
      · linarith
    | false =>
      simp at h
      rcases hg with h0 | h1
      · exact absurd h0 (ne_of_gt h)
      · exact Or.inr ⟨m, rfl, h1⟩

theorem valid_grained (x : F32) (h : x.Valid = true) : F32.Grained x := by
  cases x with
  | nan => trivial
  | inf s => trivial
  | fin s m =>
    simp only [F32.Valid, decide_eq_true_eq] at h
    exact (roundMag_binary32 m m h).1

/-- A product of a non-zero float with a finite float of magnitude above `1 / 2` is not
zero and has the sign of the product. -/
theorem mul_strict_right (s t : Bool) (x : F32) (C : ℚ) (hx : F32.Strict s x) (hC : 1 / 2 < C) :
    F32.Strict (xor s t) (x.mul (.fin t C)) := by
  have hp := pow2_pos (-150)
  rcases hx with rfl | ⟨m, rfl, hm⟩
  · have hC0 : C ≠ 0 := by linarith
    simp only [F32.mul, if_neg hC0]
    exact Or.inl rfl
  · simp only [F32.mul]
    apply round_strict
    rw [pow2_neg150] at hm
    nlinarith

theorem mul_strict_left (s t : Bool) (C : ℚ) (y : F32) (hC : 1 / 2 < C) (hy : F32.Strict t y) :
    F32.Strict (xor s t) ((F32.fin s C).mul y) := by
  have hp := pow2_pos (-150)
  rcases hy with rfl | ⟨m, rfl, hm⟩
  · have hC0 : C ≠ 0 := by linarith
    simp only [F32.mul, if_neg hC0]
    exact Or.inl rfl
  · simp only [F32.mul]
    apply round_strict
    rw [pow2_neg150] at hm
    nlinarith

theorem add_nonpos_strict (v z : F32) (hv : F32.NonPos v) (hz : F32.Strict true z) :
    F32.Strict true (v.add z) := by
  have hp := pow2_pos (-150)
  have hp' := pow2_neg150
  rcases hz with rfl | ⟨k, rfl, hk⟩
  · rcases hv with rfl | rfl | rfl | ⟨m, rfl, hm⟩ <;> simp [F32.add, F32.Strict]
  · rcases hv with rfl | rfl | rfl | ⟨m, rfl, hm⟩
    · have hk0 : 0 < k := by linarith
      simp only [F32.add]
      rw [if_neg (by decide), if_neg (not_lt.mpr hk0.le), if_pos hk0]
      apply round_strict
      linarith
    · simp only [F32.add, if_true]
      apply round_strict
      linarith
    · simp [F32.add, F32.Strict]
    · simp only [F32.add, if_true]
      apply round_strict
      linarith

theorem a32_eq : a32 = .fin true (10286531 / 1048576) := by decide!

theorem restitution32_eq : restitution32 = .fin true (15938355 / 16777216) := by decide!

theorem physicsUpdate32_clamp (a dt : F32) (s : PhysicsState32)
    (h : F32.le (s.y.add ((s.v.add (a.mul dt)).mul dt)) negOne32 = true) :
    physicsUpdate32 a dt s
      = { v := (s.v.add (a.mul dt)).mul restitution32, y := negOne32,
          cout := s.cout ++ ["COLLISION"] } := by
  simp only [physicsUpdate32, h, if_true, push_back]

theorem physicsUpdate32_free (a dt : F32) (s : PhysicsState32)
    (h : F32.le (s.y.add ((s.v.add (a.mul dt)).mul dt)) negOne32 = false) :
    physicsUpdate32 a dt s
      = { v := s.v.add (a.mul dt), y := s.y.add ((s.v.add (a.mul dt)).mul dt),
          cout := s.cout } := by
  simp [physicsUpdate32, h]

theorem frameLoop32_append (a : F32) (dts : List F32) (d : F32) (s : PhysicsState32) :
    frameLoop32 a (dts ++ [d]) s = physicsUpdate32 a d (frameLoop32 a dts s) := by
  simp [frameLoop32, List.foldl_append]

/-- A float that fails the test `x <= -1.0f` is NaN or at least `-1`, and is not below `-1`. -/
theorem not_le_negOne (x : F32) (h : F32.le x negOne32 = false) :
    (x = .nan ∨ F32.le negOne32 x = true) ∧ F32.lt x negOne32 = false := by
  cases x with
  | nan => exact ⟨Or.inl rfl, rfl⟩
  | inf s =>
    simp only [F32.le, negOne32] at h
    subst h
    exact ⟨Or.inr rfl, rfl⟩
  | fin s m =>
    simp only [F32.le, negOne32, decide_eq_false_iff_not, not_le] at h
    refine ⟨Or.inr ?_, ?_⟩
    · simp only [F32.le, negOne32, decide_eq_true_eq]; exact h.le
    · simp only [F32.lt, negOne32, decide_eq_false_iff_not, not_lt]; exact h.le

theorem negOne32_le_self : F32.le negOne32 negOne32 = true := by decide!

theorem negOne32_lt_self : F32.lt negOne32 negOne32 = false := by decide!

theorem negOne32_le_zero32 : F32.le negOne32 zero32 = true := by decide!

theorem zero32_lt_negOne32 : F32.lt zero32 negOne32 = false := by decide!

theorem physicsUpdate32_floor (a dt : F32) (s : PhysicsState32) :
    ((physicsUpdate32 a dt s).y = .nan ∨ F32.le negOne32 (physicsUpdate32 a dt s).y = true) ∧
    F32.lt (physicsUpdate32 a dt s).y negOne32 = false := by
  cases h : F32.le (s.y.add ((s.v.add (a.mul dt)).mul dt)) negOne32 with
  | true =>
    rw [physicsUpdate32_clamp a dt s h]
    exact ⟨Or.inr negOne32_le_self, negOne32_lt_self⟩
  | false =>
    rw [physicsUpdate32_free a dt s h]
    exact not_le_negOne _ h

theorem frameLoop32_floor (a : F32) (dts : List F32) :
    ((frameLoop32 a dts initialState32).y = .nan
      ∨ F32.le negOne32 (frameLoop32 a dts initialState32).y = true) ∧
    F32.lt (frameLoop32 a dts initialState32).y negOne32 = false := by
  induction dts using List.reverseRecOn with
  | nil => exact ⟨Or.inr negOne32_le_zero32, zero32_lt_negOne32⟩
  | append_singleton dts d _ => rw [frameLoop32_append]; exact physicsUpdate32_floor a d _

theorem valid_pos_strict (d : F32) (hd : d.Valid = true ∧ F32.lt zero32 d = true) :
    F32.Strict false d :=
  grained_pos_strict d (valid_grained d hd.1) hd.2

/-- From rest under `a32`, with positive time steps, the velocity is zero or negative as
long as no collision has been logged. -/
theorem frameLoop32_falling (dts : List F32)
    (hpos : ∀ x ∈ dts, x.Valid = true ∧ F32.lt zero32 x = true)
    (hlog : (frameLoop32 a32 dts initialState32).cout = []) :
    F32.NonPos (frameLoop32 a32 dts initialState32).v := by
  induction dts using List.reverseRecOn with
  | nil => exact Or.inl rfl
  | append_singleton dts d ih =>
    rw [frameLoop32_append] at hlog ⊢
    have hd := valid_pos_strict d (hpos d (by simp))
    have hpos' : ∀ x ∈ dts, x.Valid = true ∧ F32.lt zero32 x = true :=
      fun x hx => hpos x (by simp [hx])
    cases h : F32.le ((frameLoop32 a32 dts initialState32).y.add
        (((frameLoop32 a32 dts initialState32).v.add (a32.mul d)).mul d)) negOne32 with
    | true =>
      rw [physicsUpdate32_clamp _ _ _ h] at hlog
      simp at hlog
    | false =>
      rw [physicsUpdate32_free _ _ _ h] at hlog ⊢
      have hv := ih hpos' hlog
      have hz : F32.Strict true (a32.mul d) := by
        rw [a32_eq]
        exact mul_strict_left true false _ d (by norm_num) hd
      exact Or.inr (Or.inr (add_nonpos_strict _ _ hv hz))


/-! ## Claims on the physics update -/

/-- C4, disproved as stated.  (1) With `a = 0`, `dt = 4097/2048`, `v = -4097/2048`,
`y = 12591105/4194304`, all binary32 values, the integrated height
`y + (v + a * dt) * dt` is exactly `-1`, but the product `v * dt` is rounded and the update
leaves the height at `-4194303/4194304`, above `-1` and not clamped.  (2) From height 0,
velocity 0 under `a = -9.81f`, one frame with `dt = 2^127` overflows the velocity and ends
with velocity `+∞` at height `-1`; a following frame with `dt = 0` computes `∞ * 0`, and the
height is NaN, for which `-1 ≤ y` is false. -/
theorem C4_counterexample :
    ((F32.fin false (4097 / 2048)).Valid = true ∧ (F32.fin true (4097 / 2048)).Valid = true ∧
      (F32.fin false (12591105 / 4194304)).Valid = true ∧
      (12591105 / 4194304 + (-(4097 / 2048) + 0 * (4097 / 2048)) * (4097 / 2048) : ℚ) ≤ -1 ∧
      (physicsUpdate32 zero32 (.fin false (4097 / 2048))
          { v := .fin true (4097 / 2048), y := .fin false (12591105 / 4194304),
            cout := [] }).y
        = .fin true (4194303 / 4194304)) ∧
    ((F32.fin false (pow2 127)).Valid = true ∧
      frameLoop32 a32 [.fin false (pow2 127)] initialState32
        = { v := .inf false, y := negOne32, cout := ["COLLISION"] } ∧
      (frameLoop32 a32 [.fin false (pow2 127), zero32] initialState32).y = .nan ∧
      F32.le negOne32 (frameLoop32 a32 [.fin false (pow2 127), zero32] initialState32).y
        = false) ∧
    ¬ (∀ (y v a dt : F32) (out : List String),
        F32.le negOne32 (physicsUpdate32 a dt { v := v, y := y, cout := out }).y = true) := by
  refine ⟨⟨by decide!, by decide!, by decide!, by norm_num, by decide!⟩,
    ⟨by decide!, by decide!, by decide!, by decide!⟩, ?_⟩
  intro hall
  have h := hall negOne32 (.inf false) a32 zero32 []
  revert h
  decide!

/-- C4, amended to binary32 arithmetic.  For every height `y`, velocity `v`, acceleration
`a` and every `dt`, the height after one update is NaN or `≥ -1.0`, and it is not below
`-1.0`; it is exactly `-1.0` whenever the integrated height, as computed in binary32, is
`≤ -1.0`; hence after any sequence of `dt` values from height 0, velocity 0 the height is
NaN or `≥ -1.0`, and never below `-1.0`. -/
theorem C4_floor_invariant (y v a dt : F32) (out : List String) (dts : List F32) :
    ((physicsUpdate32 a dt { v := v, y := y, cout := out }).y = .nan ∨
      F32.le negOne32 (physicsUpdate32 a dt { v := v, y := y, cout := out }).y = true) ∧
    F32.lt (physicsUpdate32 a dt { v := v, y := y, cout := out }).y negOne32 = false ∧
    (F32.le (y.add ((v.add (a.mul dt)).mul dt)) negOne32 = true →
      (physicsUpdate32 a dt { v := v, y := y, cout := out }).y = negOne32) ∧
    ((frameLoop32 a dts initialState32).y = .nan ∨
      F32.le negOne32 (frameLoop32 a dts initialState32).y = true) ∧
    F32.lt (frameLoop32 a dts initialState32).y negOne32 = false := by
  refine ⟨(physicsUpdate32_floor a dt _).1, (physicsUpdate32_floor a dt _).2, ?_,
    (frameLoop32_floor a dts).1, (frameLoop32_floor a dts).2⟩
  intro h
  rw [physicsUpdate32_clamp a dt _ h]

/-- C4 (amended) at `y = -15/16`, `v = -1`, `a = -9.81f`, `dt = 1/8`: the integrated
height computed in binary32 is below `-1`, the update clamps it to `-1`. -/
theorem C4_floor_invariant_witness :
    F32.le ((F32.fin true (15 / 16)).add
      (((F32.fin true 1).add (a32.mul (.fin false (1 / 8)))).mul (.fin false (1 / 8))))
      negOne32 = true ∧
    (physicsUpdate32 a32 (.fin false (1 / 8))
      { v := .fin true 1, y := .fin true (15 / 16), cout := [] }).y = negOne32 :=
  ⟨by decide!,
    (C4_floor_invariant (.fin true (15 / 16)) (.fin true 1) a32 (.fin false (1 / 8)) []
      []).2.2.1 (by decide!)⟩

/-- C5, disproved as stated.  (1) With `v = -4`, `y = -2`, `a = 0`, `dt = 0` the clamp
triggers and the resulting velocity is the binary32 product of `-4` and `-0.95f`,
`15938355/4194304 = 3.79999995...`, not `-0.95 * (v + a * dt) = 3.8`.  (2) From height 0,
velocity 0 under `a = -9.81f`, after a frame with `dt = 8947849/536870912` the frame with
`dt = 2605633/8388608` clamps, although the integrated height `y + (v + a * dt) * dt` of
that frame is above `-1`: binary32 rounding brings the computed height to `-1`. -/
theorem C5_counterexample :
    (physicsUpdate32 zero32 zero32 { v := .fin true 4, y := .fin true 2, cout := [] }
        = { v := .fin false (15938355 / 4194304), y := negOne32, cout := ["COLLISION"] } ∧
      (15938355 / 4194304 : ℚ) ≠ -0.95 * (-4 + 0 * 0)) ∧
    (a32 = .fin true (10286531 / 1048576) ∧
      (F32.fin false (8947849 / 536870912)).Valid = true ∧
      (F32.fin false (2605633 / 8388608)).Valid = true ∧
      frameLoop32 a32 [.fin false (8947849 / 536870912)] initialState32
        = { v := .fin true (2743075 / 16777216), y := .fin true (11703787 / 4294967296),
            cout := [] } ∧
      frameLoop32 a32 [.fin false (8947849 / 536870912), .fin false (2605633 / 8388608)]
          initialState32
        = { v := .fin false (12793079 / 4194304), y := negOne32, cout := ["COLLISION"] } ∧
      ¬ ((-(11703787 / 4294967296)
            + (-(2743075 / 16777216) + -(10286531 / 1048576) * (2605633 / 8388608))
              * (2605633 / 8388608) : ℚ) ≤ -1)) := by
  refine ⟨⟨by decide!, by norm_num⟩,
    ⟨by decide!, by decide!, by decide!, by decide!, by decide!, by norm_num⟩⟩

/-- C5, amended to binary32 arithmetic.  On an update in which the clamp triggers (the
integrated height computed in binary32 is `≤ -1.0`) the height is `-1.0`, one `COLLISION`
line is written, and the resulting velocity is the binary32 product of the integrated
velocity `v + a * dt` with `-0.95f = -15938355/16777216`, so a negative integrated
velocity gives a positive velocity and a positive one a negative velocity; on an update in
which the clamp does not trigger the resulting velocity is the binary32 sum `v + a * dt` and
the resulting height is the binary32 value `y + (v + a * dt) * dt`.  Scenario: from height
0, velocity 0 under `a = -9.81f`, after frames `dts` with positive `dt` and no collision
yet, a frame with positive `dt = d` has a negative incoming velocity, and if the clamp
triggers on it the outgoing velocity is positive. -/
theorem C5_collision_response (y v a dt : F32) (out : List String) (dts : List F32) (d : F32)
    (hpos : ∀ x ∈ dts, x.Valid = true ∧ F32.lt zero32 x = true)
    (hd : d.Valid = true ∧ F32.lt zero32 d = true) :
    (F32.le (y.add ((v.add (a.mul dt)).mul dt)) negOne32 = true →
      physicsUpdate32 a dt { v := v, y := y, cout := out }
        = { v := (v.add (a.mul dt)).mul restitution32, y := negOne32,
            cout := out ++ ["COLLISION"] } ∧
      (F32.lt (v.add (a.mul dt)) zero32 = true →
        F32.lt zero32 ((v.add (a.mul dt)).mul restitution32) = true) ∧
      (F32.lt zero32 (v.add (a.mul dt)) = true →
        F32.lt ((v.add (a.mul dt)).mul restitution32) zero32 = true)) ∧
    (F32.le (y.add ((v.add (a.mul dt)).mul dt)) negOne32 = false →
      physicsUpdate32 a dt { v := v, y := y, cout := out }
        = { v := v.add (a.mul dt), y := y.add ((v.add (a.mul dt)).mul dt), cout := out }) ∧
    restitution32 = .fin true (15938355 / 16777216) ∧
    ((frameLoop32 a32 dts initialState32).cout = [] →
      F32.lt ((frameLoop32 a32 dts initialState32).v.add (a32.mul d)) zero32 = true ∧
      (F32.le ((frameLoop32 a32 dts initialState32).y.add
          (((frameLoop32 a32 dts initialState32).v.add (a32.mul d)).mul d)) negOne32 = true →
        F32.lt zero32 (frameLoop32 a32 (dts ++ [d]) initialState32).v = true ∧
        (frameLoop32 a32 (dts ++ [d]) initialState32).v
          = ((frameLoop32 a32 dts initialState32).v.add (a32.mul d)).mul restitution32 ∧
        (frameLoop32 a32 (dts ++ [d]) initialState32).cout = ["COLLISION"])) := by
  have hflip_neg : ∀ w : F32, F32.Strict true w → F32.Strict false (w.mul restitution32) := by
    intro w hw
    rw [restitution32_eq]
    exact mul_strict_right true true w _ hw (by norm_num)
  have hflip_pos : ∀ w : F32, F32.Strict false w → F32.Strict true (w.mul restitution32) := by
    intro w hw
    rw [restitution32_eq]
    exact mul_strict_right false true w _ hw (by norm_num)
  refine ⟨fun h => ⟨physicsUpdate32_clamp a dt _ h, ?_, ?_⟩,
    fun h => physicsUpdate32_free a dt _ h, restitution32_eq, ?_⟩
  · intro hneg
    exact strict_pos_lt _ (hflip_neg _ (grained_neg_strict _ (add_grained _ _) hneg))
  · intro hp
    exact strict_neg_lt _ (hflip_pos _ (grained_pos_strict _ (add_grained _ _) hp))
  · intro hlog
    have hv := frameLoop32_falling dts hpos hlog
    have hz : F32.Strict true (a32.mul d) := by
      rw [a32_eq]
      exact mul_strict_left true false _ d (by norm_num) (valid_pos_strict d hd)
    have hin := add_nonpos_strict _ _ hv hz
    refine ⟨strict_neg_lt _ hin, ?_⟩
    intro hclamp
    rw [frameLoop32_append, physicsUpdate32_clamp _ _ _ hclamp, hlog]
    exact ⟨strict_pos_lt _ (hflip_neg _ hin), rfl, rfl⟩

/-- C5 (amended) on the run with `dt = 0.1f = 13421773/134217728` on every frame: four
frames log nothing, the fifth clamps; its incoming velocity is negative and its outgoing
velocity positive. -/
theorem C5_collision_response_witness :
    (∀ x ∈ [F32.fin false (13421773 / 134217728), .fin false (13421773 / 134217728),
        .fin false (13421773 / 134217728), .fin false (13421773 / 134217728)],
      x.Valid = true ∧ F32.lt zero32 x = true) ∧
    (frameLoop32 a32 [.fin false (13421773 / 134217728), .fin false (13421773 / 134217728),
        .fin false (13421773 / 134217728), .fin false (13421773 / 134217728)]
        initialState32).cout = [] ∧
    F32.lt ((frameLoop32 a32 [.fin false (13421773 / 134217728),
        .fin false (13421773 / 134217728), .fin false (13421773 / 134217728),
        .fin false (13421773 / 134217728)] initialState32).v.add
          (a32.mul (.fin false (13421773 / 134217728)))) zero32 = true ∧
    F32.lt zero32 (frameLoop32 a32 ([.fin false (13421773 / 134217728),
        .fin false (13421773 / 134217728), .fin false (13421773 / 134217728),
        .fin false (13421773 / 134217728)] ++ [.fin false (13421773 / 134217728)])
        initialState32).v = true ∧
    (frameLoop32 a32 ([.fin false (13421773 / 134217728),
        .fin false (13421773 / 134217728), .fin false (13421773 / 134217728),
        .fin false (13421773 / 134217728)] ++ [.fin false (13421773 / 134217728)])
        initialState32).cout = ["COLLISION"] := by
  have hd : (F32.fin false (13421773 / 134217728)).Valid = true ∧
      F32.lt zero32 (.fin false (13421773 / 134217728)) = true := by decide!
  have hpos : ∀ x ∈ [F32.fin false (13421773 / 134217728), .fin false (13421773 / 134217728),
      .fin false (13421773 / 134217728), .fin false (13421773 / 134217728)],
      x.Valid = true ∧ F32.lt zero32 x = true := by
    intro x hx
    simp only [List.mem_cons, List.mem_singleton, List.not_mem_nil, or_false, or_self] at hx
    rw [hx]
    exact hd
  have hlog : (frameLoop32 a32 [.fin false (13421773 / 134217728),
      .fin false (13421773 / 134217728), .fin false (13421773 / 134217728),
      .fin false (13421773 / 134217728)] initialState32).cout = [] := by decide!
  have h := (C5_collision_response zero32 zero32 zero32 zero32 []
    [.fin false (13421773 / 134217728), .fin false (13421773 / 134217728),
      .fin false (13421773 / 134217728), .fin false (13421773 / 134217728)]
    (.fin false (13421773 / 134217728)) hpos hd).2.2.2 hlog
  have h2 := h.2 (by decide!)
  exact ⟨hpos, hlog, h.1, h2.1, h2.2.2⟩

/-! ## Claims on the constant-timestep run -/

/-- C10, disproved as stated: in the constant-timestep run frames 49, 50 and 51 are three
successive collision frames, and the peak height between 49 and 50 and the peak height
between 50 and 51 are both `-1`: the peak does not strictly decrease from one bounce to the
next for every pair of successive bounces.  Frame 50 reports its collision starting from
height exactly `-1`, not from above. -/
theorem C10_counterexample :
    successiveCollisions 49 50 = true ∧ successiveCollisions 50 51 = true ∧
    peakBetween 49 50 = -1 ∧ peakBetween 50 51 = -1 ∧
    (heightAfter 49 = -1 ∧ collisionFrame 50 = true ∧ downwardCrossing 50 = false) ∧
    ¬ ((∀ k, collisionFrame k = downwardCrossing k) ∧
       (∀ c₁ c₂ c₃, successiveCollisions c₁ c₂ = true → successiveCollisions c₂ c₃ = true →
          peakBetween c₂ c₃ < peakBetween c₁ c₂)) := by
  have h1 : successiveCollisions 49 50 = true := by decide!
  have h2 : successiveCollisions 50 51 = true := by decide!
  have h3 : peakBetween 49 50 = -1 := by decide!
  have h4 : peakBetween 50 51 = -1 := by decide!
  refine ⟨h1, h2, h3, h4, by decide!, ?_⟩
  rintro ⟨-, hall⟩
  have h := hall 49 50 51 h1 h2
  rw [h3, h4] at h
  exact lt_irrefl _ h

/-- C10, amended.  In the constant-timestep run (from rest, `a = -9.81`, `dt = 0.1`):
the collision frames among frames 1..49 are 5, 14, 22, 29, 35, 40, 44, 47, 49; on frames
1..49 a collision is reported exactly on the downward crossings of `-1.0`; the peak heights
between these nine successive collisions are strictly decreasing; and from frame 49 on the
ball stays on the floor: for every `k ≥ 49` the height after frame `k` is `-1`, frame `k + 1`
reports a collision without starting above `-1.0`, and the peak between frames `k` and
`k + 1` is `-1`. -/
theorem C10_bounce_sequence (k : ℕ) (hk : 49 ≤ k) :
    (List.range' 1 49).filter collisionFrame = [5, 14, 22, 29, 35, 40, 44, 47, 49] ∧
    (List.range' 1 49).all (fun f => collisionFrame f == downwardCrossing f) = true ∧
    (peakBetween 14 22 < peakBetween 5 14 ∧ peakBetween 22 29 < peakBetween 14 22 ∧
     peakBetween 29 35 < peakBetween 22 29 ∧ peakBetween 35 40 < peakBetween 29 35 ∧
     peakBetween 40 44 < peakBetween 35 40 ∧ peakBetween 44 47 < peakBetween 40 44 ∧
     peakBetween 47 49 < peakBetween 44 47) ∧
    (heightAfter k = -1 ∧ collisionFrame (k + 1) = true ∧ downwardCrossing (k + 1) = false ∧
     peakBetween k (k + 1) = -1) := by
  refine ⟨by decide!, by decide!, by decide!, ?_⟩
  have hs := settled_from_49 k hk
  have hs' := settled_from_49 (k + 1) (by omega)
  have hstep := settled_step (constantRun k) hs.1 hs.2.1 hs.2.2
  have hk1 : heightAfter k = -1 := hs.1
  have hk2 : heightAfter (k + 1) = -1 := hs'.1
  refine ⟨hk1, ?_, ?_, ?_⟩
  · simp [collisionFrame, constantRun_succ, hstep.2.2.2]
  · simp [downwardCrossing, hk1]
    intro h
    norm_num at h
  · have h2 : k + 1 + 1 - k = 2 := by omega
    simp [peakBetween, h2, List.range', hk1, hk2]

/-- C10 (amended) at frame 60: the ball lies on the floor and frame 61 reports a
collision. -/
theorem C10_bounce_sequence_witness :
    49 ≤ 60 ∧ heightAfter 60 = -1 ∧ collisionFrame 61 = true ∧ downwardCrossing 61 = false ∧
    peakBetween 60 61 = -1 :=
  ⟨by decide, (C10_bounce_sequence 60 (by decide)).2.2.2⟩

/-! ## Claims on the GPU resource wrappers -/

/-- C6, evaluated on the run of `main` in which the driver hands out buffer handles 1 and 2,
shader handles 1 and 2, program handle 3 and vertex-array handle 1: while the `Program`
constructor runs (point 6 of the run) the shader handles are each held by two live `Shader`
instances, so ownership is not exclusive at every point; at the end `glDeleteShader` has been
issued twice for shader handle 1 and twice for shader handle 2, so not every acquired handle
is released exactly once.  The buffer, program and vertex-array handles are released
once. -/
theorem C6_shader_handles_released_twice :
    ((mainResources ⟨1, 2, 1, 2, 3, 1⟩).all World.exclusive = false ∧
     ((mainResources ⟨1, 2, 1, 2, 3, 1⟩)[6]?).map
        (fun w => w.live.count (.shader { m_id := 1 })) = some 2 ∧
     ((mainResources ⟨1, 2, 1, 2, 3, 1⟩)[6]?).map
        (fun w => w.live.count (.shader { m_id := 2 })) = some 2) ∧
    (releasedExactlyOnce (mainEnd ⟨1, 2, 1, 2, 3, 1⟩).gl.calls = false ∧
     (mainEnd ⟨1, 2, 1, 2, 3, 1⟩).gl.calls.count (.glDeleteShader 1) = 2 ∧
     (mainEnd ⟨1, 2, 1, 2, 3, 1⟩).gl.calls.count (.glDeleteShader 2) = 2) ∧
    ((mainEnd ⟨1, 2, 1, 2, 3, 1⟩).gl.calls.count (.glDeleteBuffers 1) = 1 ∧
     (mainEnd ⟨1, 2, 1, 2, 3, 1⟩).gl.calls.count (.glDeleteBuffers 2) = 1 ∧
     (mainEnd ⟨1, 2, 1, 2, 3, 1⟩).gl.calls.count (.glDeleteProgram 3) = 1 ∧
     (mainEnd ⟨1, 2, 1, 2, 3, 1⟩).gl.calls.count (.glDeleteVertexArrays 1) = 1 ∧
     (mainEnd ⟨1, 2, 1, 2, 3, 1⟩).live = []) := by
  decide

/-- C7, disproved as stated: for each of the four wrapper classes, the destructor body run
twice on an instance holding handle 5 issues the release call for handle 5 twice. -/
theorem C7_counterexample :
    (destroyTwice Shader.destroy { m_id := 5 } { calls := [], cout := [] }).2.calls
      = [.glDeleteShader 5, .glDeleteShader 5] ∧
    (destroyTwice Program.destroy { m_id := 5 } { calls := [], cout := [] }).2.calls
      = [.glDeleteProgram 5, .glDeleteProgram 5] ∧
    (destroyTwice Buffer.destroy { m_id := 5 } { calls := [], cout := [] }).2.calls
      = [.glDeleteBuffers 5, .glDeleteBuffers 5] ∧
    (destroyTwice VertexArray.destroy { m_id := 5 } { calls := [], cout := [] }).2.calls
      = [.glDeleteVertexArrays 5, .glDeleteVertexArrays 5] ∧
    ¬ (∀ (self : Shader) (gl : GLLog),
        (destroyTwice Shader.destroy self gl).2.calls.count (.glDeleteShader self.m_id)
          ≤ gl.calls.count (.glDeleteShader self.m_id) + 1) := by
  refine ⟨by decide, by decide, by decide, by decide, ?_⟩
  intro hall
  have h := hall { m_id := 5 } { calls := [], cout := [] }
  revert h
  decide

/-- C7, amended.  For each wrapper class: on an instance whose handle is 0 the destructor
body issues no release call, also when run twice; on an instance whose handle is not 0 one
run of the destructor body issues the release call for that handle exactly once. -/
theorem C7_destroy (m_id : ℕ) (gl : GLLog) :
    (m_id = 0 →
      (destroyTwice Shader.destroy { m_id := m_id } gl).2.calls = gl.calls ∧
      (destroyTwice Program.destroy { m_id := m_id } gl).2.calls = gl.calls ∧
      (destroyTwice Buffer.destroy { m_id := m_id } gl).2.calls = gl.calls ∧
      (destroyTwice VertexArray.destroy { m_id := m_id } gl).2.calls = gl.calls) ∧
    (m_id ≠ 0 →
      (Shader.destroy { m_id := m_id } gl).2.calls = gl.calls ++ [.glDeleteShader m_id] ∧
      (Program.destroy { m_id := m_id } gl).2.calls = gl.calls ++ [.glDeleteProgram m_id] ∧
      (Buffer.destroy { m_id := m_id } gl).2.calls = gl.calls ++ [.glDeleteBuffers m_id] ∧
      (VertexArray.destroy { m_id := m_id } gl).2.calls
        = gl.calls ++ [.glDeleteVertexArrays m_id]) := by
  constructor
  · intro h0
    subst h0
    simp [destroyTwice, Shader.destroy, Program.destroy, Buffer.destroy, VertexArray.destroy]
  · intro h0
    simp [Shader.destroy, Program.destroy, Buffer.destroy, VertexArray.destroy, push_back, h0]

/-- C7 (amended) at handle 0 (two runs issue nothing) and at handle 7 (one run issues one
`glDeleteShader 7`). -/
theorem C7_destroy_witness :
    (destroyTwice Shader.destroy { m_id := 0 } { calls := [], cout := [] }).2.calls = [] ∧
    (Shader.destroy { m_id := 7 } { calls := [], cout := [] }).2.calls
      = [] ++ [.glDeleteShader 7] :=
  ⟨((C7_destroy 0 { calls := [], cout := [] }).1 rfl).1,
   ((C7_destroy 7 { calls := [], cout := [] }).2 (by decide)).1⟩

end SimplePhysicsSim
